import Mathlib

/-!
Verification of the swarm coordination core of `src/agents/swarm_intelligence_agent.py`.

The Python class `SwarmIntelligenceAgent` is embedded shallowly: its four
in-memory registries (agents, tasks, workflows, model profiles) become a
`SwarmState` record of insertion-ordered association lists with Python-dict
assignment semantics, and each public method becomes a pure Lean function from
the old state (plus explicit wall-clock inputs standing for `datetime.now()`)
to its return value and the new state.  Logging (`_log_action`) writes to an
external sink and has no effect on the coordinator state, so it is dropped.
A Python `KeyError` (the only reachable hard failure, an unresolvable
`assigned_to` inside `execute_task`) is modelled as `Option.none`.
-/

namespace Swarm

/-! ## Registries: Python dicts as insertion-ordered association lists -/

/-- A Python `Dict[str, α]`: keys in insertion order, assignment to an
existing key replaces the value in place. -/
abbrev Reg (α : Type) : Type := List (String × α)

/-- Dictionary lookup `d.get(k)`. -/
def Reg.find? {α : Type} (r : Reg α) (k : String) : Option α :=
  (List.find? (fun p => p.1 = k) r).map (fun p => p.2)

/-- Membership test `k in d`. -/
def Reg.holds {α : Type} (r : Reg α) (k : String) : Bool :=
  List.any r (fun p => p.1 = k)

/-- Dictionary assignment `d[k] = v`: replaces in place when the key exists,
otherwise appends at the end (insertion order). -/
def Reg.set {α : Type} (r : Reg α) (k : String) (v : α) : Reg α :=
  if Reg.holds r k then List.map (fun p => if p.1 = k then (k, v) else p) r
  else r ++ [(k, v)]

/-- Iteration over `d.values()`, in insertion order. -/
def Reg.values {α : Type} (r : Reg α) : List α :=
  List.map (fun p => p.2) r

/-! ## String helpers mirroring Python semantics -/

/-- Whether `needle` occurs at the start of `hay` (character lists). -/
def leadsWith : List Char → List Char → Bool
  | [], _ => true
  | _ :: _, [] => false
  | a :: as, b :: bs => a == b && leadsWith as bs

/-- Whether `needle` occurs anywhere inside `hay`; this is Python's
`needle in hay` on strings (the empty needle always matches). -/
def containsSub (needle : List Char) : List Char → Bool
  | [] => List.isEmpty needle
  | c :: rest => leadsWith needle (c :: rest) || containsSub needle rest

/-- Python string membership `needle in hay`. -/
def strIn (needle hay : String) : Bool :=
  containsSub needle.data hay.data

/-- Python `str.lower()` on ASCII input (same function as `String.toLower`,
written by direct recursion over the character list). -/
def lowerStr (s : String) : String :=
  String.mk (List.map Char.toLower s.data)

/-- A word character for the regex `\w` on ASCII input. -/
def isWordChar (c : Char) : Bool :=
  c.isAlphanum || c == '_'

/-- Splits a character list into maximal runs of word characters,
accumulating the current (reversed) run in `acc`. -/
def splitWords : List Char → List Char → List String
  | [], [] => []
  | [], acc => [String.mk acc.reverse]
  | c :: cs, acc =>
    if isWordChar c then splitWords cs (c :: acc)
    else if List.isEmpty acc then splitWords cs []
    else String.mk acc.reverse :: splitWords cs []

/-- Python `re.findall(r"\w+", s)` on ASCII input. -/
def findWords (s : String) : List String :=
  splitWords s.data []

/-! ## Data model (the dataclasses of the source file) -/

/-- The `AgentRole` enumeration. -/
inductive AgentRole : Type
  | coordinator
  | analyzer
  | executor
  | monitor
  | communicator
deriving DecidableEq, Repr

/-- The result payload `execute_task` builds on success (its (`"success": True`)
dictionary, minus the constant success flag which the embedding carries in
`ExecResult`). -/
structure ExecPayload : Type where
  task_id : String
  agent_id : String
  agent_name : String
  executed_at : String
  description : String
deriving DecidableEq, Repr

/-- A structured operation result: either a success payload
(`{"success": True, ...}`) or a failure (`{"success": False, "error": msg}`). -/
inductive ExecResult : Type
  | ok (payload : ExecPayload)
  | err (msg : String)
deriving DecidableEq, Repr

/-- Python `result.get("success")` truthiness. -/
def ExecResult.success : ExecResult → Bool
  | .ok _ => true
  | .err _ => false

/-- The `Task` dataclass. -/
structure Task : Type where
  task_id : String
  description : String
  priority : Int
  assigned_to : Option String := none
  status : String := "pending"
  created_at : String
  completed_at : Option String := none
  result : Option ExecResult := none
deriving DecidableEq, Repr

/-- The `Agent` dataclass. -/
structure Agent : Type where
  agent_id : String
  name : String
  role : AgentRole
  capabilities : List String
  status : String := "idle"
  tasks_completed : Nat := 0
  created_at : String
deriving DecidableEq, Repr

/-- The `ModelProfile` dataclass. -/
structure ModelProfile : Type where
  model_id : String
  name : String
  provider : String
  strengths : List String
  status : String := "available"
  endpoint : Option String := none
  created_at : String
deriving DecidableEq, Repr

/-- The `WorkflowStep` dataclass. -/
structure WorkflowStep : Type where
  step_id : String
  description : String
  priority : Int := 5
  assigned_to : Option String := none
  status : String := "pending"
  result : Option ExecResult := none
deriving DecidableEq, Repr

/-- The `Workflow` dataclass. -/
structure Workflow : Type where
  workflow_id : String
  name : String
  description : String
  steps : List WorkflowStep := []
  status : String := "pending"
  created_at : String
  executed_at : Option String := none
  results : List ExecResult := []
deriving DecidableEq, Repr

/-- The mutable state of a `SwarmIntelligenceAgent` instance: its four
registries.  The workspace path, asyncio queue (never consumed) and the log
file are external and carry no coordination state. -/
structure SwarmState : Type where
  agents : Reg Agent
  tasks : Reg Task
  workflows : Reg Workflow
  models : Reg ModelProfile
deriving DecidableEq, Repr

/-! ## Matcher: agent selection and model routing -/

/-- The distinct lowercase word tokens of a task description:
`set(re.findall(r"\w+", description.lower()))`. -/
def taskKeywords (description : String) : List String :=
  List.dedup (findWords (lowerStr description))

/-- The agent-selection score `len(keywords & {cap.lower() for cap in
capabilities})`; `keywords` is assumed duplicate-free (as produced by
`taskKeywords`). -/
def agentScore (keywords : List String) (a : Agent) : Nat :=
  (List.filter (fun t => List.any a.capabilities (fun c => lowerStr c = t)) keywords).length

/-- Accumulator of the `select_agent_for_task` scan: current best agent and
best score (initially `None` and `-1`). -/
structure SelAcc : Type where
  best : Option Agent
  bestScore : Int
deriving DecidableEq, Repr

/-- The scan loop of `select_agent_for_task`: a strictly greater score
replaces the current best. -/
def selectLoop (keywords : List String) : List Agent → SelAcc → SelAcc
  | [], acc => acc
  | a :: rest, acc =>
    if (agentScore keywords a : Int) > acc.bestScore then
      selectLoop keywords rest ⟨some a, (agentScore keywords a : Int)⟩
    else
      selectLoop keywords rest acc

/-- `SwarmIntelligenceAgent.select_agent_for_task`. -/
def select_agent_for_task (s : SwarmState) (description : String) : Option String :=
  if List.isEmpty s.agents then none
  else
    let keywords := taskKeywords description
    let acc := selectLoop keywords (Reg.values s.agents) ⟨none, -1⟩
    if acc.bestScore ≤ 0 && Reg.holds s.agents "analyzer_01" then some "analyzer_01"
    else Option.map (fun a => a.agent_id) acc.best

/-- The model-routing score of one model: how many of its lowercased
strength keywords occur as substrings of the lowercased query. -/
def modelScore (queryLower : String) (m : ModelProfile) : Nat :=
  List.countP (fun t => strIn t queryLower) (List.map lowerStr m.strengths)

/-- The lowercased strength keywords of `m` that occur in the query
(`matched_strengths`). -/
def modelMatched (queryLower : String) (m : ModelProfile) : List String :=
  List.filter (fun t => strIn t queryLower) (List.map lowerStr m.strengths)

/-- Accumulator of the `route_model` scan. -/
structure RouteAcc : Type where
  best : Option ModelProfile
  bestScore : Int
  matched : List String
deriving DecidableEq, Repr

/-- The scan loop of `route_model`: a strictly greater score replaces the
current best model, score and matched-strength list. -/
def routeLoop (queryLower : String) : List ModelProfile → RouteAcc → RouteAcc
  | [], acc => acc
  | m :: rest, acc =>
    if (modelScore queryLower m : Int) > acc.bestScore then
      routeLoop queryLower rest ⟨some m, (modelScore queryLower m : Int), modelMatched queryLower m⟩
    else
      routeLoop queryLower rest acc

/-- The value `route_model` returns: an error dictionary or a success
dictionary carrying the chosen model, its score and a reason string. -/
inductive RouteResult : Type
  | err (msg : String)
  | ok (model : ModelProfile) (score : Int) (reason : String)
deriving DecidableEq, Repr

/-- The common tail of `route_model`: build the reason string and the
success dictionary. -/
def mkRouteOk (m : ModelProfile) (score : Int) (matched : List String) : RouteResult :=
  RouteResult.ok m score
    (if List.isEmpty matched then "No direct match, defaulting to " ++ m.name
     else "Matched strengths: " ++ String.intercalate ", " matched)

/-- `SwarmIntelligenceAgent.route_model`. -/
def route_model (s : SwarmState) (query : String) : RouteResult :=
  if List.isEmpty s.models then RouteResult.err "No models registered"
  else
    let available := Reg.values s.models
    let queryLower := lowerStr query
    let acc := routeLoop queryLower available ⟨none, -1, []⟩
    match acc.best with
    | some best => mkRouteOk best acc.bestScore acc.matched
    | none =>
      match available with
      | [] => RouteResult.err "No models registered"
      | m :: _ => mkRouteOk m acc.bestScore acc.matched

/-! ## State operations

Each method becomes a function of the old state; every call of
`datetime.now()` inside one method is abstracted into that method's explicit
`now : String` parameter. -/

/-- `SwarmIntelligenceAgent.register_agent`: build the agent and assign it
into the agents dict (no duplicate check — an existing id is overwritten). -/
def register_agent (s : SwarmState) (agent_id name : String) (role : AgentRole)
    (capabilities : List String) (now : String) : Agent × SwarmState :=
  let agent : Agent :=
    { agent_id := agent_id, name := name, role := role, capabilities := capabilities
      status := "idle", tasks_completed := 0, created_at := now }
  (agent, { s with agents := Reg.set s.agents agent_id agent })

/-- `SwarmIntelligenceAgent.create_task`: build the task and assign it into
the tasks dict (no duplicate check — an existing id is overwritten). -/
def create_task (s : SwarmState) (task_id description : String) (priority : Int)
    (now : String) : Task × SwarmState :=
  let task : Task :=
    { task_id := task_id, description := description, priority := priority
      assigned_to := none, status := "pending", created_at := now
      completed_at := none, result := none }
  (task, { s with tasks := Reg.set s.tasks task_id task })

/-- `SwarmIntelligenceAgent.assign_task`: returns `False` untouched unless
both the task and the agent exist; otherwise sets `assigned_to` and moves the
task to `"assigned"` (the capability match-score computation only emits a
warning and is dropped).  The task's current status is never inspected. -/
def assign_task (s : SwarmState) (task_id agent_id : String) : Bool × SwarmState :=
  match Reg.find? s.tasks task_id with
  | none => (false, s)
  | some task =>
    if Reg.holds s.agents agent_id then
      let task1 := { task with assigned_to := some agent_id, status := "assigned" }
      (true, { s with tasks := Reg.set s.tasks task_id task1 })
    else (false, s)

/-- `SwarmIntelligenceAgent.execute_task`.  `none` models the Python
`KeyError` raised when `assigned_to` names an unregistered agent; the
`"Task not assigned"` branch fires on Python falsiness of `assigned_to`,
i.e. on `None` and on the empty string.  The transient `"executing"` status
is immediately overwritten by `"completed"` within the same call. -/
def execute_task (s : SwarmState) (task_id : String) (now : String) :
    Option (ExecResult × SwarmState) :=
  match Reg.find? s.tasks task_id with
  | none => some (ExecResult.err "Task not found", s)
  | some task =>
    match task.assigned_to with
    | none => some (ExecResult.err "Task not assigned", s)
    | some aid =>
      if aid = "" then some (ExecResult.err "Task not assigned", s)
      else
        match Reg.find? s.agents aid with
        | none => none
        | some agent =>
          let payload : ExecPayload :=
            { task_id := task_id, agent_id := agent.agent_id, agent_name := agent.name
              executed_at := now, description := task.description }
          some (ExecResult.ok payload,
            { s with
              tasks := Reg.set s.tasks task_id
                { task with status := "completed", completed_at := some now
                            result := some (ExecResult.ok payload) }
              agents := Reg.set s.agents aid
                { agent with tasks_completed := agent.tasks_completed + 1 } })

/-- One row of the `"agents"` list inside the swarm status. -/
structure AgentSummary : Type where
  id : String
  name : String
  role : AgentRole
  status : String
  tasks_completed : Nat
deriving DecidableEq, Repr

/-- The dictionary `get_swarm_status` returns. -/
structure SwarmStatus : Type where
  timestamp : String
  total_agents : Nat
  active_agents : Nat
  total_tasks : Nat
  completed_tasks : Nat
  completion_rate : Rat
  total_workflows : Nat
  completed_workflows : Nat
  models_available : Nat
  agents : List AgentSummary
deriving DecidableEq, Repr

/-- `SwarmIntelligenceAgent.get_swarm_status`. -/
def get_swarm_status (s : SwarmState) (now : String) : SwarmStatus :=
  let total_tasks := s.tasks.length
  let completed_tasks :=
    (List.filter (fun t => t.status = "completed") (Reg.values s.tasks)).length
  { timestamp := now
    total_agents := s.agents.length
    active_agents :=
      (List.filter (fun a => a.status = "active") (Reg.values s.agents)).length
    total_tasks := total_tasks
    completed_tasks := completed_tasks
    completion_rate :=
      if total_tasks > 0 then (completed_tasks : Rat) / (total_tasks : Rat) else 0
    total_workflows := s.workflows.length
    completed_workflows :=
      (List.filter (fun w => w.status = "completed") (Reg.values s.workflows)).length
    models_available := s.models.length
    agents := List.map
      (fun a => AgentSummary.mk a.agent_id a.name a.role a.status a.tasks_completed)
      (Reg.values s.agents) }

/-- `SwarmIntelligenceAgent.register_model`. -/
def register_model (s : SwarmState) (model_id name provider : String)
    (strengths : List String) (endpoint : Option String) (status : String)
    (now : String) : ModelProfile × SwarmState :=
  let model : ModelProfile :=
    { model_id := model_id, name := name, provider := provider
      strengths := strengths, status := status, endpoint := endpoint
      created_at := now }
  (model, { s with models := Reg.set s.models model_id model })

/-- `SwarmIntelligenceAgent.list_models` (serialization via `asdict` is the
identity on the model record). -/
def list_models (s : SwarmState) : List ModelProfile :=
  Reg.values s.models

/-- `SwarmIntelligenceAgent.list_workflows` (`_workflow_to_dict` re-serializes
each workflow without changing its content). -/
def list_workflows (s : SwarmState) : List Workflow :=
  Reg.values s.workflows

/-- One element of the `steps` argument of `create_workflow`: either an
already-built `WorkflowStep` or a dictionary, whose absent keys fall back to
`""`, `5` and `None` respectively. -/
inductive StepInput : Type
  | step (ws : WorkflowStep)
  | dict (description : Option String) (priority : Option Int) (assigned_to : Option String)
deriving DecidableEq, Repr

/-- Materialize the `idx`-th (1-based) step input of `create_workflow`. -/
def buildStep (workflow_id : String) (idx : Nat) : StepInput → WorkflowStep
  | .step ws => ws
  | .dict d p a =>
    { step_id := workflow_id ++ "_step_" ++ toString idx
      description := Option.getD d ""
      priority := Option.getD p 5
      assigned_to := a
      status := "pending", result := none }

/-- Number the step inputs from `idx` upward (Python `enumerate(steps, 1)`). -/
def numberSteps (workflow_id : String) (idx : Nat) : List StepInput → List WorkflowStep
  | [] => []
  | st :: rest => buildStep workflow_id idx st :: numberSteps workflow_id (idx + 1) rest

/-- `SwarmIntelligenceAgent.create_workflow`. -/
def create_workflow (s : SwarmState) (workflow_id name description : String)
    (steps : List StepInput) (now : String) : Workflow × SwarmState :=
  let wf : Workflow :=
    { workflow_id := workflow_id, name := name, description := description
      steps := numberSteps workflow_id 1 steps
      status := "pending", created_at := now, executed_at := none, results := [] }
  (wf, { s with workflows := Reg.set s.workflows workflow_id wf })

/-- Python `step.assigned_to or select_agent_for_task(...)` followed by
`if not agent_id`: resolve the agent id for a workflow step, treating `None`
and `""` as falsy at both stages. -/
def resolveStepAgent (s : SwarmState) (step : WorkflowStep) : Option String :=
  let raw : Option String :=
    match step.assigned_to with
    | some a => if a = "" then select_agent_for_task s step.description else some a
    | none => select_agent_for_task s step.description
  match raw with
  | some a => if a = "" then none else some a
  | none => none

/-- One iteration of the `execute_workflow` loop on the step with 1-based
index `idx`: create a real task, resolve an agent, assign and execute; a
failure at any stage marks the step `failed` with the error recorded as the
step's result, which is also appended to the workflow's results.  Returns
the finished step, the result to append, and the new state; `none`
propagates the (unreachable) `KeyError` of `execute_task`. -/
def stepOnce (wid suffix now : String) (idx : Nat) (step : WorkflowStep)
    (s : SwarmState) : Option (WorkflowStep × ExecResult × SwarmState) :=
  let task_id := wid ++ "_" ++ toString idx ++ "_" ++ suffix
  let step0 := { step with status := "executing" }
  let created := create_task s task_id step0.description step0.priority now
  let s1 := created.2
  match resolveStepAgent s1 step0 with
  | none =>
    some ({ step0 with status := "failed",
                       result := some (ExecResult.err "No agent available") },
          ExecResult.err "No agent available", s1)
  | some agent_id =>
    let assigned := assign_task s1 (created.1).task_id agent_id
    if assigned.1 then
      match execute_task assigned.2 (created.1).task_id now with
      | none => none
      | some (result, s3) =>
        some ({ step0 with
                 assigned_to := some agent_id,
                 result := some result,
                 status := if ExecResult.success result then "completed" else "failed" },
              result, s3)
    else
      some ({ step0 with status := "failed",
                         result := some (ExecResult.err "Task assignment failed") },
            ExecResult.err "Task assignment failed", assigned.2)

/-- The `execute_workflow` loop over the remaining steps, accumulating the
finished steps and the appended results in order. -/
def stepLoop (wid suffix now : String) :
    Nat → List WorkflowStep → SwarmState →
    Option (SwarmState × List WorkflowStep × List ExecResult)
  | _, [], s => some (s, [], [])
  | idx, step :: rest, s =>
    match stepOnce wid suffix now idx step s with
    | none => none
    | some (step1, result, s3) =>
      match stepLoop wid suffix now (idx + 1) rest s3 with
      | none => none
      | some (s', steps', results') =>
        some (s', step1 :: steps', result :: results')

/-- The value `execute_workflow` returns: the not-found error dictionary or
`{"success": status == "completed", "workflow": ...}`. -/
inductive WorkflowResult : Type
  | notFound
  | done (success : Bool) (workflow : Workflow)
deriving DecidableEq, Repr

/-- `SwarmIntelligenceAgent.execute_workflow`.  The run suffix
(`strftime("%H%M%S")`) and every timestamp taken during the run are
abstracted into the single `now` parameter. -/
def execute_workflow (s : SwarmState) (workflow_id : String) (now : String) :
    Option (WorkflowResult × SwarmState) :=
  match Reg.find? s.workflows workflow_id with
  | none => some (WorkflowResult.notFound, s)
  | some wf =>
    match stepLoop wf.workflow_id now now 1 wf.steps s with
    | none => none
    | some (s', steps', results') =>
      let wf2 : Workflow :=
        { wf with
          status := if List.all steps' (fun st => st.status == "completed")
                    then "completed" else "partial"
          executed_at := some now
          steps := steps'
          results := results' }
      some (WorkflowResult.done (wf2.status == "completed") wf2,
        { s' with workflows := Reg.set s'.workflows workflow_id wf2 })

/-! ## Construction and reachability -/

/-- The five model profiles `_register_default_models` installs. -/
def defaultModels (now : String) : List ModelProfile :=
  [ { model_id := "gpt_4", name := "GPT-4", provider := "OpenAI"
      strengths := ["code", "analysis", "reasoning", "planning"], created_at := now }
  , { model_id := "claude_3_5", name := "Claude 3.5", provider := "Anthropic"
      strengths := ["writing", "analysis", "summarize", "strategy"], created_at := now }
  , { model_id := "gemini_1_5", name := "Gemini 1.5", provider := "Google"
      strengths := ["multimodal", "long-context", "research", "vision"], created_at := now }
  , { model_id := "perplexity", name := "Perplexity", provider := "Perplexity AI"
      strengths := ["search", "citations", "research", "browsing"], created_at := now }
  , { model_id := "minimax", name := "Minimax", provider := "Minimax"
      strengths := ["planning", "workflow", "coordination", "automation"], created_at := now } ]

/-- `SwarmIntelligenceAgent.__init__`: empty registries, then
`_register_default_models` assigns each default model into the model dict. -/
def initialState (now : String) : SwarmState :=
  { agents := [], tasks := [], workflows := []
    models := List.foldl (fun r m => Reg.set r m.model_id m) [] (defaultModels now) }

/-- The states reachable from a fresh coordinator through its public
mutating operations (read-only operations do not change the state). -/
inductive Reachable : SwarmState → Prop
  | init (now : String) : Reachable (initialState now)
  | regAgent {s : SwarmState} (agent_id name : String) (role : AgentRole)
      (capabilities : List String) (now : String) :
      Reachable s → Reachable (register_agent s agent_id name role capabilities now).2
  | newTask {s : SwarmState} (task_id description : String) (priority : Int) (now : String) :
      Reachable s → Reachable (create_task s task_id description priority now).2
  | assign {s : SwarmState} (task_id agent_id : String) :
      Reachable s → Reachable (assign_task s task_id agent_id).2
  | exec {s s' : SwarmState} {r : ExecResult} (task_id now : String) :
      Reachable s → execute_task s task_id now = some (r, s') → Reachable s'
  | regModel {s : SwarmState} (model_id name provider : String) (strengths : List String)
      (endpoint : Option String) (status now : String) :
      Reachable s →
      Reachable (register_model s model_id name provider strengths endpoint status now).2
  | newWorkflow {s : SwarmState} (workflow_id name description : String)
      (steps : List StepInput) (now : String) :
      Reachable s → Reachable (create_workflow s workflow_id name description steps now).2
  | execWorkflow {s s' : SwarmState} {r : WorkflowResult} (workflow_id now : String) :
      Reachable s → execute_workflow s workflow_id now = some (r, s') → Reachable s'

/-! ## Concrete example states used in the concrete checks below -/

/-- A fresh coordinator with one analyzer agent registered (the setup of the
spec's workflow example). -/
def exAnalyzerState : SwarmState :=
  (register_agent (initialState "t0") "analyzer_01" "Analyzer" AgentRole.analyzer
    ["analyze", "review", "audit"] "t0").2

/-- The analyzer coordinator plus the spec's two-step demonstration workflow:
one matchable step and one step pre-assigned to an unregistered agent. -/
def exWorkflowState : SwarmState :=
  (create_workflow exAnalyzerState "wf1" "Demo" "two steps"
    [StepInput.dict (some "analyze X") none none,
     StepInput.dict (some "bogus") none (some "nonexistent")] "t0").2

/-- One registered agent whose capabilities share no keyword with the test
descriptions, and no `"analyzer_01"` in the registry. -/
def exNoMatchState : SwarmState :=
  (register_agent (initialState "t0") "a1" "Alpha" AgentRole.executor ["fly"] "t0").2

/-- One agent registered under id `"a"`. -/
def exDupState : SwarmState :=
  (register_agent (initialState "t0") "a" "Alice" AgentRole.analyzer ["x"] "t1").2

/-- A coordinator state holding one agent and one already-completed task. -/
def exCompletedState : SwarmState :=
  { agents := [("g", Agent.mk "g" "Gamma" AgentRole.executor ["run"] "idle" 1 "t0")]
    tasks := [("t", Task.mk "t" "run things" 1 (some "g") "completed" "t1" (some "t2") none)]
    workflows := []
    models := [] }

/-- A coordinator with an agent registered under the empty identifier. -/
def exEmptyIdState : SwarmState :=
  (register_agent (initialState "t0") "" "Ghost" AgentRole.executor [] "t0").2

/-- Two zero-capability agents, `"a1"` registered before `"analyzer_01"`. -/
def exTieState : SwarmState :=
  (register_agent
    (register_agent (initialState "t0") "a1" "Alpha" AgentRole.executor [] "t0").2
    "analyzer_01" "Analyzer" AgentRole.analyzer [] "t0").2

/-- The planning/workflow model of the spec's routing example. -/
def planningModel : ModelProfile :=
  ModelProfile.mk "m1" "Planner" "ProvA" ["planning", "workflow"] "available" none "t0"

/-- The search/citations model of the spec's routing example. -/
def searchModel : ModelProfile :=
  ModelProfile.mk "m2" "Searcher" "ProvB" ["search", "citations"] "available" none "t0"

/-- A model registry holding exactly the two example models, in order. -/
def exTwoModelState : SwarmState :=
  { agents := [], tasks := [], workflows := []
    models := [("m1", planningModel), ("m2", searchModel)] }

/-- A coordinator state with an empty model registry. -/
def exNoModelState : SwarmState :=
  { agents := [], tasks := [], workflows := [], models := [] }

/-- Projection of an `execute_workflow` outcome to its success flag, workflow
status, step statuses and number of recorded results, for concrete checks. -/
def wfSummary (o : Option (WorkflowResult × SwarmState)) :
    Option (Bool × String × List String × Nat) :=
  Option.map (fun p => match p.1 with
    | WorkflowResult.notFound => (false, "", [], 0)
    | WorkflowResult.done b wf =>
      (b, wf.status, List.map (fun (st : WorkflowStep) => st.status) wf.steps,
        wf.results.length)) o

/-! ## Registry lemmas -/

theorem Reg.holds_iff {α : Type} (r : Reg α) (k : String) :
    Reg.holds r k = true ↔ ∃ p, p ∈ r ∧ p.1 = k := by
  simp [Reg.holds]

theorem Reg.find?_isSome_of_holds {α : Type} {r : Reg α} {k : String}
    (h : Reg.holds r k = true) : ∃ v, Reg.find? r k = some v := by
  unfold Reg.holds at h
  unfold Reg.find?
  rw [List.any_eq_true] at h
  obtain ⟨p, hp, hk⟩ := h
  have : (List.find? (fun p => p.1 = k) r).isSome := by
    rw [List.find?_isSome]
    exact ⟨p, hp, hk⟩
  obtain ⟨q, hq⟩ := Option.isSome_iff_exists.mp this
  exact ⟨q.2, by rw [hq]; rfl⟩

theorem Reg.holds_of_find? {α : Type} {r : Reg α} {k : String} {v : α}
    (h : Reg.find? r k = some v) : Reg.holds r k = true := by
  unfold Reg.find? at h
  unfold Reg.holds
  rw [List.any_eq_true]
  obtain ⟨q, hq, hqv⟩ := Option.map_eq_some'.mp h
  refine ⟨q, List.mem_of_find?_eq_some hq, ?_⟩
  have hsome := List.find?_some hq
  simpa using hsome

theorem Reg.list_find?_set {α : Type} (r : Reg α) (k : String) (v : α) :
    List.find? (fun p => p.1 = k) (Reg.set r k v) = some (k, v) := by
  unfold Reg.set
  by_cases h : Reg.holds r k = true
  · rw [if_pos h]
    rw [List.find?_map]
    have hcomp : ((fun (p : String × α) => decide (p.1 = k)) ∘
        (fun p => if p.1 = k then (k, v) else p)) = fun p => decide (p.1 = k) := by
      funext p
      by_cases hp : p.1 = k <;> simp [hp]
    rw [hcomp]
    obtain ⟨w, hw⟩ := Reg.find?_isSome_of_holds h
    unfold Reg.find? at hw
    obtain ⟨q, hq, hqv⟩ := Option.map_eq_some'.mp hw
    rw [hq]
    have : q.1 = k := by simpa using List.find?_some hq
    simp [this]
  · rw [if_neg h]
    rw [List.find?_append]
    have hnone : List.find? (fun p => p.1 = k) r = none := by
      rw [List.find?_eq_none]
      intro p hp
      simp only [decide_eq_true_eq]
      intro hk
      exact h (Reg.holds_iff r k |>.mpr ⟨p, hp, hk⟩)
    rw [hnone]
    simp

theorem Reg.find?_set_self {α : Type} (r : Reg α) (k : String) (v : α) :
    Reg.find? (Reg.set r k v) k = some v := by
  unfold Reg.find?
  rw [Reg.list_find?_set]
  rfl

theorem Reg.length_set_of_holds {α : Type} {r : Reg α} {k : String} (v : α)
    (h : Reg.holds r k = true) : (Reg.set r k v).length = r.length := by
  simp [Reg.set, h]

theorem Reg.set_ne_nil {α : Type} (r : Reg α) (k : String) (v : α) :
    Reg.set r k v ≠ [] := by
  unfold Reg.set
  by_cases h : Reg.holds r k = true
  · rw [if_pos h]
    intro hc
    rw [List.map_eq_nil_iff] at hc
    subst hc
    simp [Reg.holds] at h
  · rw [if_neg h]
    simp

theorem Reg.mem_values_of_find? {α : Type} {r : Reg α} {k : String} {v : α}
    (h : Reg.find? r k = some v) : v ∈ Reg.values r := by
  unfold Reg.find? at h
  obtain ⟨q, hq, hqv⟩ := Option.map_eq_some'.mp h
  unfold Reg.values
  exact hqv ▸ List.mem_map_of_mem _ (List.mem_of_find?_eq_some hq)

/-! ## First-maximum analysis of the two scan loops -/

theorem selectLoop_go (kw : List String) :
    ∀ (l : List Agent) (a : Agent),
      (selectLoop kw l ⟨some a, (agentScore kw a : Int)⟩ = ⟨some a, (agentScore kw a : Int)⟩ ∧
        ∀ x ∈ l, agentScore kw x ≤ agentScore kw a) ∨
      (∃ pre y post, l = pre ++ y :: post ∧
        selectLoop kw l ⟨some a, (agentScore kw a : Int)⟩ = ⟨some y, (agentScore kw y : Int)⟩ ∧
        agentScore kw a < agentScore kw y ∧
        (∀ x ∈ pre, agentScore kw x < agentScore kw y) ∧
        (∀ x ∈ post, agentScore kw x ≤ agentScore kw y)) := by
  intro l
  induction l with
  | nil =>
    intro a
    left
    exact ⟨by simp [selectLoop], by simp⟩
  | cons x xs ih =>
    intro a
    by_cases hgt : agentScore kw a < agentScore kw x
    · have hstep : selectLoop kw (x :: xs) ⟨some a, (agentScore kw a : Int)⟩ =
          selectLoop kw xs ⟨some x, (agentScore kw x : Int)⟩ := by
        simp only [selectLoop]
        rw [if_pos (by exact_mod_cast hgt)]
      rcases ih x with ⟨heq, hall⟩ | ⟨pre, y, post, hsplit, heq, hlt, hpre, hpost⟩
      · right
        exact ⟨[], x, xs, by simp, by rw [hstep, heq], hgt, by simp, hall⟩
      · right
        refine ⟨x :: pre, y, post, by simp [hsplit], by rw [hstep, heq],
          lt_trans hgt hlt, ?_, hpost⟩
        intro z hz
        rcases List.mem_cons.mp hz with hz | hz
        · exact hz ▸ hlt
        · exact hpre z hz
    · push_neg at hgt
      have hstep : selectLoop kw (x :: xs) ⟨some a, (agentScore kw a : Int)⟩ =
          selectLoop kw xs ⟨some a, (agentScore kw a : Int)⟩ := by
        simp only [selectLoop]
        rw [if_neg (by exact_mod_cast not_lt.mpr hgt)]
      rcases ih a with ⟨heq, hall⟩ | ⟨pre, y, post, hsplit, heq, hlt, hpre, hpost⟩
      · left
        refine ⟨by rw [hstep, heq], ?_⟩
        intro z hz
        rcases List.mem_cons.mp hz with hz | hz
        · exact hz ▸ hgt
        · exact hall z hz
      · right
        refine ⟨x :: pre, y, post, by simp [hsplit], by rw [hstep, heq],
          hlt, ?_, hpost⟩
        intro z hz
        rcases List.mem_cons.mp hz with hz | hz
        · exact hz ▸ lt_of_le_of_lt hgt hlt
        · exact hpre z hz

theorem selectLoop_start (kw : List String) (a : Agent) (l : List Agent) :
    ∃ pre y post, a :: l = pre ++ y :: post ∧
      selectLoop kw (a :: l) ⟨none, -1⟩ = ⟨some y, (agentScore kw y : Int)⟩ ∧
      (∀ x ∈ pre, agentScore kw x < agentScore kw y) ∧
      (∀ x ∈ post, agentScore kw x ≤ agentScore kw y) := by
  have hstep : selectLoop kw (a :: l) ⟨none, -1⟩ =
      selectLoop kw l ⟨some a, (agentScore kw a : Int)⟩ := by
    simp only [selectLoop]
    rw [if_pos]
    exact lt_of_lt_of_le (by norm_num) (Int.ofNat_nonneg _)
  rcases selectLoop_go kw l a with ⟨heq, hall⟩ | ⟨pre, y, post, hsplit, heq, _, hpre, hpost⟩
  · exact ⟨[], a, l, by simp, by rw [hstep, heq], by simp, hall⟩
  · refine ⟨a :: pre, y, post, by simp [hsplit], by rw [hstep, heq], ?_, hpost⟩
    intro z hz
    rcases List.mem_cons.mp hz with hz | hz
    · rename_i hlt _
      exact hz ▸ hlt
    · exact hpre z hz

theorem routeLoop_go (q : String) :
    ∀ (l : List ModelProfile) (a : ModelProfile) (mt : List String),
      (routeLoop q l ⟨some a, (modelScore q a : Int), mt⟩ =
          ⟨some a, (modelScore q a : Int), mt⟩ ∧
        ∀ x ∈ l, modelScore q x ≤ modelScore q a) ∨
      (∃ pre y post, l = pre ++ y :: post ∧
        routeLoop q l ⟨some a, (modelScore q a : Int), mt⟩ =
          ⟨some y, (modelScore q y : Int), modelMatched q y⟩ ∧
        modelScore q a < modelScore q y ∧
        (∀ x ∈ pre, modelScore q x < modelScore q y) ∧
        (∀ x ∈ post, modelScore q x ≤ modelScore q y)) := by
  intro l
  induction l with
  | nil =>
    intro a mt
    left
    exact ⟨by simp [routeLoop], by simp⟩
  | cons x xs ih =>
    intro a mt
    by_cases hgt : modelScore q a < modelScore q x
    · have hstep : routeLoop q (x :: xs) ⟨some a, (modelScore q a : Int), mt⟩ =
          routeLoop q xs ⟨some x, (modelScore q x : Int), modelMatched q x⟩ := by
        simp only [routeLoop]
        rw [if_pos (by exact_mod_cast hgt)]
      rcases ih x (modelMatched q x) with ⟨heq, hall⟩ |
          ⟨pre, y, post, hsplit, heq, hlt, hpre, hpost⟩
      · right
        exact ⟨[], x, xs, by simp, by rw [hstep, heq], hgt, by simp, hall⟩
      · right
        refine ⟨x :: pre, y, post, by simp [hsplit], by rw [hstep, heq],
          lt_trans hgt hlt, ?_, hpost⟩
        intro z hz
        rcases List.mem_cons.mp hz with hz | hz
        · exact hz ▸ hlt
        · exact hpre z hz
    · push_neg at hgt
      have hstep : routeLoop q (x :: xs) ⟨some a, (modelScore q a : Int), mt⟩ =
          routeLoop q xs ⟨some a, (modelScore q a : Int), mt⟩ := by
        simp only [routeLoop]
        rw [if_neg (by exact_mod_cast not_lt.mpr hgt)]
      rcases ih a mt with ⟨heq, hall⟩ | ⟨pre, y, post, hsplit, heq, hlt, hpre, hpost⟩
      · left
        refine ⟨by rw [hstep, heq], ?_⟩
        intro z hz
        rcases List.mem_cons.mp hz with hz | hz
        · exact hz ▸ hgt
        · exact hall z hz
      · right
        refine ⟨x :: pre, y, post, by simp [hsplit], by rw [hstep, heq],
          hlt, ?_, hpost⟩
        intro z hz
        rcases List.mem_cons.mp hz with hz | hz
        · exact hz ▸ lt_of_le_of_lt hgt hlt
        · exact hpre z hz

theorem routeLoop_start (q : String) (a : ModelProfile) (l : List ModelProfile) :
    ∃ pre y post, a :: l = pre ++ y :: post ∧
      routeLoop q (a :: l) ⟨none, -1, []⟩ =
        ⟨some y, (modelScore q y : Int), modelMatched q y⟩ ∧
      (∀ x ∈ pre, modelScore q x < modelScore q y) ∧
      (∀ x ∈ post, modelScore q x ≤ modelScore q y) := by
  have hstep : routeLoop q (a :: l) ⟨none, -1, []⟩ =
      routeLoop q l ⟨some a, (modelScore q a : Int), modelMatched q a⟩ := by
    simp only [routeLoop]
    rw [if_pos]
    exact lt_of_lt_of_le (by norm_num) (Int.ofNat_nonneg _)
  rcases routeLoop_go q l a (modelMatched q a) with ⟨heq, hall⟩ |
      ⟨pre, y, post, hsplit, heq, hlt, hpre, hpost⟩
  · exact ⟨[], a, l, by simp, by rw [hstep, heq], by simp, hall⟩
  · refine ⟨a :: pre, y, post, by simp [hsplit], by rw [hstep, heq], ?_, hpost⟩
    intro z hz
    rcases List.mem_cons.mp hz with hz | hz
    · exact hz ▸ hlt
    · exact hpre z hz

/-- For a non-empty model registry, `route_model` returns the success
dictionary for the first model attaining the maximal score. -/
theorem route_model_spec (s : SwarmState) (q : String) (h : s.models ≠ []) :
    ∃ pre y post, Reg.values s.models = pre ++ y :: post ∧
      route_model s q =
        mkRouteOk y (modelScore (lowerStr q) y : Int) (modelMatched (lowerStr q) y) ∧
      (∀ x ∈ pre, modelScore (lowerStr q) x < modelScore (lowerStr q) y) ∧
      (∀ x ∈ post, modelScore (lowerStr q) x ≤ modelScore (lowerStr q) y) := by
  match hm : s.models with
  | [] => exact absurd hm h
  | p :: ps =>
    have hvals : Reg.values s.models = p.2 :: Reg.values ps := by
      rw [hm]; rfl
    obtain ⟨pre, y, post, hsplit, heq, hpre, hpost⟩ :=
      routeLoop_start (lowerStr q) p.2 (Reg.values ps)
    refine ⟨pre, y, post, hsplit, ?_, hpre, hpost⟩
    unfold route_model
    rw [if_neg (by rw [hm]; simp)]
    rw [hvals]
    simp only [heq]

/-! ## Operation frame lemmas -/

theorem assign_task_frame (s : SwarmState) (tid aid : String) :
    (assign_task s tid aid).2.agents = s.agents ∧
    (assign_task s tid aid).2.models = s.models ∧
    (assign_task s tid aid).2.workflows = s.workflows := by
  unfold assign_task
  split
  · exact ⟨rfl, rfl, rfl⟩
  · split
    · exact ⟨rfl, rfl, rfl⟩
    · exact ⟨rfl, rfl, rfl⟩

theorem assign_task_true {s : SwarmState} {tid aid : String} {s2 : SwarmState}
    (h : assign_task s tid aid = (true, s2)) :
    ∃ task, Reg.find? s.tasks tid = some task ∧ Reg.holds s.agents aid = true ∧
      s2 = { s with tasks := Reg.set s.tasks tid { task with assigned_to := some aid, status := "assigned" } } := by
  unfold assign_task at h
  split at h
  · simp at h
  · rename_i task htask
    split at h
    · rename_i hag
      simp only [Prod.mk.injEq, true_and] at h
      exact ⟨task, htask, hag, h.symm⟩
    · simp at h

theorem execute_task_frame {s s' : SwarmState} {tid now : String} {r : ExecResult}
    (h : execute_task s tid now = some (r, s')) :
    s'.models = s.models ∧ s'.workflows = s.workflows := by
  unfold execute_task at h
  split at h
  · obtain ⟨h1, h2⟩ := by simpa using h
    subst h2
    exact ⟨rfl, rfl⟩
  · split at h
    · obtain ⟨h1, h2⟩ := by simpa using h
      subst h2
      exact ⟨rfl, rfl⟩
    · split at h
      · obtain ⟨h1, h2⟩ := by simpa using h
        subst h2
        exact ⟨rfl, rfl⟩
      · split at h
        · simp at h
        · obtain ⟨h1, h2⟩ := by simpa using h
          subst h2
          exact ⟨rfl, rfl⟩

/-- After a successful assignment, executing the task never hits the
`KeyError` branch: the task is present with a non-falsy or empty
`assigned_to`, and the agent it references is registered. -/
theorem execute_task_after_assign {s s2 : SwarmState} {tid aid : String}
    (h : assign_task s tid aid = (true, s2)) (now : String) :
    ∃ r s3, execute_task s2 tid now = some (r, s3) := by
  obtain ⟨task, htask, hag, hs2⟩ := assign_task_true h
  have hfind : Reg.find? s2.tasks tid =
      some { task with assigned_to := some aid, status := "assigned" } := by
    rw [hs2]
    exact Reg.find?_set_self s.tasks tid _
  unfold execute_task
  rw [hfind]
  by_cases haid : aid = ""
  · simp only [haid]
    exact ⟨ExecResult.err "Task not assigned", s2, by simp⟩
  · simp only []
    rw [if_neg haid]
    have hagents : s2.agents = s.agents := by rw [hs2]
    obtain ⟨agent, hagent⟩ := Reg.find?_isSome_of_holds hag
    rw [hagents, hagent]
    exact ⟨_, _, rfl⟩

/-! ## Workflow loop specifications -/

theorem stepOnce_spec (wid suffix now : String) (idx : Nat) (step : WorkflowStep)
    (s : SwarmState) :
    ∃ step1 result s3, stepOnce wid suffix now idx step s = some (step1, result, s3) ∧
      step1.result = some result ∧
      (step1.status = "completed" ∨ step1.status = "failed") ∧
      (step1.status = "completed" ↔ ExecResult.success result = true) ∧
      s3.models = s.models ∧ s3.workflows = s.workflows := by
  unfold stepOnce
  simp only []
  set s1 := (create_task s (wid ++ "_" ++ toString idx ++ "_" ++ suffix)
      step.description step.priority now).2 with hs1
  set tid1 := (create_task s (wid ++ "_" ++ toString idx ++ "_" ++ suffix)
      step.description step.priority now).1.task_id with htid
  have hs1m : s1.models = s.models := rfl
  have hs1w : s1.workflows = s.workflows := rfl
  rcases hres : resolveStepAgent s1 { step with status := "executing" } with _ | agent_id
  · simp only [hres]
    refine ⟨_, _, _, rfl, rfl, Or.inr rfl, ?_, hs1m, hs1w⟩
    simp [ExecResult.success]
  · simp only [hres]
    rcases hA : assign_task s1 tid1 agent_id with ⟨ok, s2⟩
    have hs2m : s2.models = s.models := by
      have hfr := (assign_task_frame s1 tid1 agent_id).2.1
      rw [hA] at hfr
      rw [hfr, hs1m]
    have hs2w : s2.workflows = s.workflows := by
      have hfr := (assign_task_frame s1 tid1 agent_id).2.2
      rw [hA] at hfr
      rw [hfr, hs1w]
    rcases ok with _ | _
    · simp only [hA]
      refine ⟨_, _, _, rfl, rfl, Or.inr rfl, ?_, hs2m, hs2w⟩
      simp [ExecResult.success]
    · obtain ⟨r, s3, hexec⟩ := execute_task_after_assign hA now
      obtain ⟨hm3, hw3⟩ := execute_task_frame hexec
      simp only [hA, hexec]
      refine ⟨_, _, _, rfl, rfl, ?_, ?_, by rw [hm3, hs2m], by rw [hw3, hs2w]⟩
      · rcases r with p | msg
        · left
          simp [ExecResult.success]
        · right
          simp [ExecResult.success]
      · rcases r with p | msg
        · simp [ExecResult.success]
        · simp [ExecResult.success]

theorem stepLoop_spec (wid suffix now : String) :
    ∀ (steps : List WorkflowStep) (idx : Nat) (s : SwarmState),
      ∃ s' steps' results',
        stepLoop wid suffix now idx steps s = some (s', steps', results') ∧
        steps'.length = steps.length ∧
        results'.length = steps.length ∧
        (∀ st ∈ steps', st.result.isSome = true ∧
          (st.status = "completed" ∨ st.status = "failed")) ∧
        s'.models = s.models ∧ s'.workflows = s.workflows := by
  intro steps
  induction steps with
  | nil =>
    intro idx s
    exact ⟨s, [], [], rfl, rfl, rfl, by simp, rfl, rfl⟩
  | cons step rest ih =>
    intro idx s
    obtain ⟨step1, result, s3, h1, hres, hstat, hiff, hm3, hw3⟩ :=
      stepOnce_spec wid suffix now idx step s
    obtain ⟨s', steps', results', h2, hlen1, hlen2, hall, hm', hw'⟩ := ih (idx + 1) s3
    refine ⟨s', step1 :: steps', result :: results', ?_, by simp [hlen1],
      by simp [hlen2], ?_, by rw [hm', hm3], by rw [hw', hw3]⟩
    · simp only [stepLoop, h1, h2]
    · intro st hst
      rcases List.mem_cons.mp hst with hh | hh
      · subst hh
        exact ⟨by rw [hres]; rfl, hstat⟩
      · exact hall st hh

theorem execute_workflow_not_found {s : SwarmState} {wid : String} (now : String)
    (h : Reg.find? s.workflows wid = none) :
    execute_workflow s wid now = some (WorkflowResult.notFound, s) := by
  unfold execute_workflow
  rw [h]

/-- Executing an existing workflow always returns normally (never the
`KeyError` path), stores the finished workflow back under its id, touches
every step, and computes the final status from the step statuses. -/
theorem execute_workflow_found {s : SwarmState} {wid : String} (now : String)
    {wf : Workflow} (h : Reg.find? s.workflows wid = some wf) :
    ∃ wf2 s2, execute_workflow s wid now =
        some (WorkflowResult.done (wf2.status == "completed") wf2, s2) ∧
      Reg.find? s2.workflows wid = some wf2 ∧
      wf2.steps.length = wf.steps.length ∧
      wf2.results.length = wf.steps.length ∧
      (∀ st ∈ wf2.steps, st.result.isSome = true ∧
        (st.status = "completed" ∨ st.status = "failed")) ∧
      wf2.status = (if List.all wf2.steps (fun st => st.status == "completed")
                    then "completed" else "partial") ∧
      s2.models = s.models := by
  obtain ⟨s', steps', results', hloop, hlen1, hlen2, hall, hm', hw'⟩ :=
    stepLoop_spec wf.workflow_id now now wf.steps 1 s
  set wf2 : Workflow := { wf with
      status := if List.all steps' (fun st => st.status == "completed")
                then "completed" else "partial",
      executed_at := some now, steps := steps', results := results' } with hwf2
  refine ⟨wf2, { s' with workflows := Reg.set s'.workflows wid wf2 },
    ?_, ?_, hlen1, hlen2, ?_, rfl, ?_⟩
  · unfold execute_workflow
    rw [h]
    dsimp only
    rw [hloop]
  · exact Reg.find?_set_self s'.workflows wid wf2
  · exact fun st hst => hall st hst
  · exact hm'

theorem execute_workflow_models {s s' : SwarmState} {wid now : String}
    {r : WorkflowResult} (h : execute_workflow s wid now = some (r, s')) :
    s'.models = s.models := by
  unfold execute_workflow at h
  split at h
  · obtain ⟨h1, h2⟩ := by simpa using h
    subst h2
    rfl
  · rename_i wf hwf
    obtain ⟨s2, steps2, results2, hl2, _, _, _, hm, _⟩ :=
      stepLoop_spec wf.workflow_id now now wf.steps 1 s
    rw [hl2] at h
    simp only [Option.some.injEq, Prod.mk.injEq] at h
    obtain ⟨h1, h2⟩ := h
    subst h2
    exact hm

/-! ## Agent selection characterization and reachability invariant -/

/-- Unfolding `select_agent_for_task` once the scan result is known. -/
theorem select_agent_eq (s : SwarmState) (d : String) (hne : s.agents ≠ []) (y : Agent)
    (heq : selectLoop (taskKeywords d) (Reg.values s.agents) ⟨none, -1⟩ =
      ⟨some y, (agentScore (taskKeywords d) y : Int)⟩) :
    select_agent_for_task s d =
      if (decide ((agentScore (taskKeywords d) y : Int) ≤ 0) &&
          Reg.holds s.agents "analyzer_01") = true
      then some "analyzer_01" else some y.agent_id := by
  unfold select_agent_for_task
  rw [if_neg (by simpa using hne)]
  simp only [heq]
  rfl

/-- For a non-empty agent registry, the scan finds the first maximum-score
agent `y`; the returned id is `y`'s unless the zero-score fallback to
`"analyzer_01"` fires. -/
theorem select_agent_cases (s : SwarmState) (d : String) (hne : s.agents ≠ []) :
    ∃ pre y post, Reg.values s.agents = pre ++ y :: post ∧
      (∀ x ∈ pre, agentScore (taskKeywords d) x < agentScore (taskKeywords d) y) ∧
      (∀ x ∈ post, agentScore (taskKeywords d) x ≤ agentScore (taskKeywords d) y) ∧
      ((agentScore (taskKeywords d) y = 0 ∧ Reg.holds s.agents "analyzer_01" = true →
        select_agent_for_task s d = some "analyzer_01") ∧
       (0 < agentScore (taskKeywords d) y ∨ Reg.holds s.agents "analyzer_01" = false →
        select_agent_for_task s d = some y.agent_id)) := by
  obtain ⟨p, ps, hm⟩ : ∃ p ps, s.agents = p :: ps := by
    rcases hl : s.agents with _ | ⟨p, ps⟩
    · exact absurd hl hne
    · exact ⟨p, ps, rfl⟩
  have hvals : Reg.values s.agents = p.2 :: Reg.values ps := by rw [hm]; rfl
  obtain ⟨pre, y, post, hsplit, heq, hpre, hpost⟩ :=
    selectLoop_start (taskKeywords d) p.2 (Reg.values ps)
  have heq2 : selectLoop (taskKeywords d) (Reg.values s.agents) ⟨none, -1⟩ =
      ⟨some y, (agentScore (taskKeywords d) y : Int)⟩ := by rw [hvals]; exact heq
  have hsel := select_agent_eq s d hne y heq2
  refine ⟨pre, y, post, by rw [hvals]; exact hsplit, hpre, hpost, ?_, ?_⟩
  · rintro ⟨hy0, hold⟩
    rw [hsel, if_pos (by rw [hold, hy0]; simp)]
  · intro hc
    rw [hsel, if_neg ?_]
    rcases hc with hpos | hfalse
    · simp only [Bool.and_eq_true, decide_eq_true_eq]
      rintro ⟨hle, -⟩
      have h1 : (1 : Int) ≤ (agentScore (taskKeywords d) y : Int) := by exact_mod_cast hpos
      omega
    · rw [hfalse]
      simp

theorem reachable_models_ne_nil {s : SwarmState} (h : Reachable s) :
    s.models ≠ [] := by
  induction h with
  | init now =>
    have hlen : (initialState now).models.length = 5 := rfl
    intro hc
    rw [hc] at hlen
    simp at hlen
  | regAgent agent_id name role capabilities now _ ih => exact ih
  | newTask task_id description priority now _ ih => exact ih
  | assign task_id agent_id _ ih =>
    rename_i s _
    rw [(assign_task_frame s task_id agent_id).2.1]
    exact ih
  | exec task_id now _ heq ih =>
    rw [(execute_task_frame heq).1]
    exact ih
  | regModel model_id name provider strengths endpoint status now _ ih =>
    exact Reg.set_ne_nil _ _ _
  | newWorkflow workflow_id name description steps now _ ih => exact ih
  | execWorkflow workflow_id now _ heq ih =>
    rw [execute_workflow_models heq]
    exact ih

theorem route_model_no_err {s : SwarmState} (h : s.models ≠ []) (q msg : String) :
    route_model s q ≠ RouteResult.err msg := by
  obtain ⟨pre, y, post, _, heq, _, _⟩ := route_model_spec s q h
  rw [heq]
  simp [mkRouteOk]

/-! ## Closed forms of assignment and execution -/

theorem assign_task_success {s : SwarmState} {tid aid : String} {task : Task}
    (hf : Reg.find? s.tasks tid = some task) (hold : Reg.holds s.agents aid = true) :
    assign_task s tid aid =
      (true, { s with tasks := Reg.set s.tasks tid { task with assigned_to := some aid, status := "assigned" } }) := by
  unfold assign_task
  rw [hf]
  simp only [hold, if_true]

theorem assign_task_failure {s : SwarmState} {tid aid : String}
    (h : Reg.find? s.tasks tid = none ∨ Reg.holds s.agents aid = false) :
    assign_task s tid aid = (false, s) := by
  unfold assign_task
  rcases hf : Reg.find? s.tasks tid with _ | task
  · rfl
  · rcases h with h | h
    · rw [hf] at h
      cases h
    · simp only [h]
      rfl

theorem execute_task_success {s : SwarmState} {tid aid now : String} {task : Task}
    {agent : Agent} (hf : Reg.find? s.tasks tid = some task)
    (ha : task.assigned_to = some aid) (hne : aid ≠ "")
    (hg : Reg.find? s.agents aid = some agent) :
    execute_task s tid now =
      some (ExecResult.ok (ExecPayload.mk tid agent.agent_id agent.name now task.description),
        { s with
          tasks := Reg.set s.tasks tid { task with status := "completed", completed_at := some now, result := some (ExecResult.ok (ExecPayload.mk tid agent.agent_id agent.name now task.description)) }
          agents := Reg.set s.agents aid { agent with tasks_completed := agent.tasks_completed + 1 } }) := by
  unfold execute_task
  rw [hf]
  dsimp only
  rw [ha]
  dsimp only
  rw [if_neg hne, hg]

/-! ## Claim theorems -/

/-- C6: executing an existing task whose `assigned_to` is unset always fails
with the "Task not assigned" error and returns the state unchanged, so the
task keeps its status, timestamps and result, and no agent's completed-task
counter moves. -/
theorem execute_unassigned_fails (s : SwarmState) (task_id now : String) (task : Task)
    (hf : Reg.find? s.tasks task_id = some task) (ha : task.assigned_to = none) :
    execute_task s task_id now = some (ExecResult.err "Task not assigned", s) := by
  unfold execute_task
  rw [hf]
  dsimp only
  rw [ha]

/-- C6 witness: a freshly created and never assigned task. -/
theorem execute_unassigned_fails_witness :
    execute_task (create_task (initialState "t0") "t" "do a thing" 1 "t1").2 "t" "t2" =
      some (ExecResult.err "Task not assigned",
        (create_task (initialState "t0") "t" "do a thing" 1 "t1").2) :=
  execute_unassigned_fails _ "t" "t2"
    (Task.mk "t" "do a thing" 1 none "pending" "t1" none none) (by decide) rfl

/-- C7: model routing errors with "No models registered" on an empty model
registry; otherwise each registered model is scored by counting its
lowercased strength keywords occurring as substrings of the lowercased
query (`modelScore`), and the first model in registry iteration order with
strictly highest score is selected. -/
theorem route_model_first_max (s : SwarmState) (query : String) :
    (s.models = [] → route_model s query = RouteResult.err "No models registered") ∧
    (s.models ≠ [] → ∃ pre m post reason,
      Reg.values s.models = pre ++ m :: post ∧
      route_model s query = RouteResult.ok m (modelScore (lowerStr query) m : Int) reason ∧
      (∀ x ∈ pre, modelScore (lowerStr query) x < modelScore (lowerStr query) m) ∧
      (∀ x ∈ post, modelScore (lowerStr query) x ≤ modelScore (lowerStr query) m)) := by
  constructor
  · intro h
    unfold route_model
    rw [if_pos (by simp [h])]
  · intro h
    obtain ⟨pre, m, post, hsplit, heq, hpre, hpost⟩ := route_model_spec s query h
    exact ⟨pre, m, post, _, hsplit, heq, hpre, hpost⟩

/-- C7 witness: the spec's routing example — the query against the
planning/workflow and search/citations models picks the first model with
score 2, and the empty registry errors. -/
theorem route_model_first_max_witness :
    route_model exNoModelState "anything" = RouteResult.err "No models registered" ∧
    (∃ pre m post reason,
      Reg.values exTwoModelState.models = pre ++ m :: post ∧
      route_model exTwoModelState "please optimize my planning workflow" =
        RouteResult.ok m
          (modelScore (lowerStr "please optimize my planning workflow") m : Int) reason ∧
      (∀ x ∈ pre, modelScore (lowerStr "please optimize my planning workflow") x <
        modelScore (lowerStr "please optimize my planning workflow") m) ∧
      (∀ x ∈ post, modelScore (lowerStr "please optimize my planning workflow") x ≤
        modelScore (lowerStr "please optimize my planning workflow") m)) ∧
    route_model exTwoModelState "please optimize my planning workflow" =
      RouteResult.ok planningModel 2 "Matched strengths: planning, workflow" := by
  refine ⟨(route_model_first_max exNoModelState "anything").1 rfl,
    (route_model_first_max exTwoModelState "please optimize my planning workflow").2
      (by decide), ?_⟩
  decide

/-- C9 counterexample: two `get_swarm_status` calls with no mutation in
between are not identical, because the result embeds the wall-clock
timestamp of the call. -/
theorem status_timestamp_counterexample :
    get_swarm_status (initialState "t0") "t1" ≠ get_swarm_status (initialState "t0") "t2" := by
  decide

/-- C9 amended: `list_models` and `list_workflows` are pure functions of the
state, so repeated calls without mutation agree; `get_swarm_status` is pure
except for its `timestamp` field — overwriting the timestamp makes two
calls equal, and two calls are identical exactly when their wall-clock
strings coincide. -/
theorem status_idempotent_except_timestamp (s : SwarmState) (t1 t2 : String) :
    list_models s = list_models s ∧
    list_workflows s = list_workflows s ∧
    { get_swarm_status s t1 with timestamp := t2 } = get_swarm_status s t2 ∧
    (get_swarm_status s t1 = get_swarm_status s t2 ↔ t1 = t2) := by
  refine ⟨rfl, rfl, rfl, ⟨?_, ?_⟩⟩
  · intro h
    have ht := congrArg SwarmStatus.timestamp h
    simpa [get_swarm_status] using ht
  · intro h
    rw [h]

/-- C10: every freshly constructed coordinator has the five default model
profiles pre-registered; no public operation removes models, so the model
registry is non-empty in every reachable state and `route_model`'s
"No models registered" branch is unreachable through the public interface. -/
theorem models_nonempty_route_ok (s : SwarmState) (hs : Reachable s) (q : String) :
    (∀ now, (initialState now).models.length = 5) ∧
    s.models ≠ [] ∧
    (∀ msg, route_model s q ≠ RouteResult.err msg) :=
  ⟨fun _ => rfl, reachable_models_ne_nil hs,
    fun msg => route_model_no_err (reachable_models_ne_nil hs) q msg⟩

/-- C10 witness: the invariant evaluated at a fresh coordinator. -/
theorem models_nonempty_route_ok_witness :
    (initialState "t0").models.length = 5 ∧
    (initialState "t0").models ≠ [] ∧
    route_model (initialState "t0") "plan a workflow" ≠
      RouteResult.err "No models registered" := by
  obtain ⟨h5, hne, herr⟩ :=
    models_nonempty_route_ok (initialState "t0") (Reachable.init "t0") "plan a workflow"
  exact ⟨h5 "t0", hne, herr "No models registered"⟩

/-- C2 counterexample: with one registered agent scoring 0 and no
`"analyzer_01"` in the registry, selection still returns that agent instead
of reporting that no agent was found. -/
theorem select_agent_no_fallback_counterexample :
    (∀ a ∈ Reg.values exNoMatchState.agents, agentScore (taskKeywords "swim") a = 0) ∧
    Reg.holds exNoMatchState.agents "analyzer_01" = false ∧
    select_agent_for_task exNoMatchState "swim" = some "a1" := by
  decide

/-- C2 amended: when every registered agent scores 0 against the
description (the best score is ≤ 0), selection falls back to
`"analyzer_01"` when that id is registered, and otherwise returns the first
registered agent (never "no agent" for a non-empty registry). -/
theorem select_agent_zero_score_fallback (s : SwarmState) (d : String)
    (p : String × Agent) (hh : s.agents.head? = some p)
    (h0 : ∀ a ∈ Reg.values s.agents, agentScore (taskKeywords d) a = 0) :
    select_agent_for_task s d =
      (if Reg.holds s.agents "analyzer_01" = true then some "analyzer_01"
       else some p.2.agent_id) := by
  have hne : s.agents ≠ [] := by
    intro hc
    rw [hc] at hh
    cases hh
  obtain ⟨pre, y, post, hsplit, hpre, hpost, hfb, hmain⟩ := select_agent_cases s d hne
  have hy : y ∈ Reg.values s.agents := by
    rw [hsplit]
    simp
  have hy0 : agentScore (taskKeywords d) y = 0 := h0 y hy
  by_cases hold : Reg.holds s.agents "analyzer_01" = true
  · rw [if_pos hold]
    exact hfb ⟨hy0, hold⟩
  · rw [if_neg hold]
    have hfalse : Reg.holds s.agents "analyzer_01" = false := by
      simpa using hold
    have hsel := hmain (Or.inr hfalse)
    have hyp : y = p.2 := by
      rcases pre with _ | ⟨x, pre2⟩
      · simp only [List.nil_append] at hsplit
        obtain ⟨q, qs, hq⟩ : ∃ q qs, s.agents = q :: qs := by
          rcases hl : s.agents with _ | ⟨q, qs⟩
          · exact absurd hl hne
          · exact ⟨q, qs, rfl⟩
        have hqp : q = p := by
          rw [hq] at hh
          simpa using hh
        have : Reg.values s.agents = q.2 :: Reg.values qs := by rw [hq]; rfl
        rw [this] at hsplit
        have := List.head_eq_of_cons_eq hsplit
        rw [← this, hqp]
      · exfalso
        have hx := hpre x (by simp)
        rw [hy0] at hx
        exact Nat.not_lt_zero _ hx
    rw [hsel, hyp]

/-- C2 witness: the fallback missing (first agent returned) and present
(`"analyzer_01"` returned) cases of the amended claim, on concrete states
where every score is 0. -/
theorem select_agent_zero_score_fallback_witness :
    select_agent_for_task exNoMatchState "swim" = some "a1" ∧
    select_agent_for_task exAnalyzerState "swim" = some "analyzer_01" := by
  constructor
  · have h := select_agent_zero_score_fallback exNoMatchState "swim"
      ("a1", Agent.mk "a1" "Alpha" AgentRole.executor ["fly"] "idle" 0 "t0")
      (by decide) (by decide)
    rw [h]
    decide
  · have h := select_agent_zero_score_fallback exAnalyzerState "swim"
      ("analyzer_01", Agent.mk "analyzer_01" "Analyzer" AgentRole.analyzer
        ["analyze", "review", "audit"] "idle" 0 "t0")
      (by decide) (by decide)
    rw [h]
    decide

/-- C3 counterexample: registering a second agent under the existing id
`"a"` does not fail — there is no error path at all — and the registry keeps
one entry under `"a"` holding the new record, not the original one. -/
theorem register_duplicate_counterexample :
    (register_agent exDupState "a" "Bob" AgentRole.monitor ["y"] "t2").2.agents.length = 1 ∧
    Reg.find? (register_agent exDupState "a" "Bob" AgentRole.monitor ["y"] "t2").2.agents "a" =
      some (Agent.mk "a" "Bob" AgentRole.monitor ["y"] "idle" 0 "t2") ∧
    Reg.find? exDupState.agents "a" =
      some (Agent.mk "a" "Alice" AgentRole.analyzer ["x"] "idle" 0 "t1") ∧
    (register_agent exDupState "a" "Bob" AgentRole.monitor ["y"] "t2").1 =
      Agent.mk "a" "Bob" AgentRole.monitor ["y"] "idle" 0 "t2" := by
  decide

/-- C3 amended: registering an agent or creating a task under an existing
identifier succeeds without any error, replacing the stored entity in place:
the registry size is unchanged and the identifier now maps to the newly
returned entity. -/
theorem register_duplicate_overwrites (s : SwarmState) :
    (∀ agent_id name role capabilities now, Reg.holds s.agents agent_id = true →
      (register_agent s agent_id name role capabilities now).2.agents.length =
        s.agents.length ∧
      Reg.find? (register_agent s agent_id name role capabilities now).2.agents agent_id =
        some (register_agent s agent_id name role capabilities now).1) ∧
    (∀ task_id description priority now, Reg.holds s.tasks task_id = true →
      (create_task s task_id description priority now).2.tasks.length = s.tasks.length ∧
      Reg.find? (create_task s task_id description priority now).2.tasks task_id =
        some (create_task s task_id description priority now).1) := by
  constructor
  · intro agent_id name role capabilities now h
    exact ⟨Reg.length_set_of_holds _ h, Reg.find?_set_self _ _ _⟩
  · intro task_id description priority now h
    exact ⟨Reg.length_set_of_holds _ h, Reg.find?_set_self _ _ _⟩

/-- C3 witness: the duplicate registration of the counterexample, through
the amended theorem. -/
theorem register_duplicate_overwrites_witness :
    (register_agent exDupState "a" "Bob" AgentRole.monitor ["y"] "t2").2.agents.length =
      exDupState.agents.length ∧
    Reg.find? (register_agent exDupState "a" "Bob" AgentRole.monitor ["y"] "t2").2.agents "a" =
      some (register_agent exDupState "a" "Bob" AgentRole.monitor ["y"] "t2").1 :=
  (register_duplicate_overwrites exDupState).1 "a" "Bob" AgentRole.monitor ["y"] "t2"
    (by decide)

/-- C4 counterexample: assigning an agent to an already-completed task
succeeds (the task's status is never inspected), returning `True` and moving
the completed task back to `"assigned"`. -/
theorem assign_completed_task_counterexample :
    Option.map (fun t => t.status) (Reg.find? exCompletedState.tasks "t") =
      some "completed" ∧
    (assign_task exCompletedState "t" "g").1 = true ∧
    Option.map (fun t => t.status)
      (Reg.find? (assign_task exCompletedState "t" "g").2.tasks "t") = some "assigned" := by
  decide

/-- C4 amended: `assign_task` succeeds exactly when the task id and the
agent id both resolve, regardless of the task's current status (completed
and failed tasks included); on a failed lookup it returns `False` and leaves
the state untouched. -/
theorem assign_task_not_found_only (s : SwarmState) (task_id agent_id : String) :
    ((Reg.find? s.tasks task_id = none ∨ Reg.holds s.agents agent_id = false) →
      assign_task s task_id agent_id = (false, s)) ∧
    (∀ task, Reg.find? s.tasks task_id = some task →
      Reg.holds s.agents agent_id = true →
      assign_task s task_id agent_id =
        (true, { s with tasks := Reg.set s.tasks task_id { task with assigned_to := some agent_id, status := "assigned" } })) := by
  exact ⟨fun h => assign_task_failure h, fun task hf hold => assign_task_success hf hold⟩

/-- C4 witness: a failing lookup leaves the state unchanged, and assigning
the completed task of the counterexample state succeeds. -/
theorem assign_task_not_found_only_witness :
    assign_task exCompletedState "missing" "g" = (false, exCompletedState) ∧
    assign_task exCompletedState "t" "g" =
      (true, { exCompletedState with
        tasks := Reg.set exCompletedState.tasks "t"
          (Task.mk "t" "run things" 1 (some "g") "assigned" "t1" (some "t2") none) }) := by
  constructor
  · exact (assign_task_not_found_only exCompletedState "missing" "g").1 (Or.inl (by decide))
  · exact (assign_task_not_found_only exCompletedState "t" "g").2
      (Task.mk "t" "run things" 1 (some "g") "completed" "t1" (some "t2") none)
      (by decide) (by decide)

/-- C8 counterexample: with two equally scored agents, the one seen first in
registry iteration order is `"a1"`, yet selection returns `"analyzer_01"` —
the zero-score fallback overrides the first-seen tie-break. -/
theorem select_agent_tie_break_counterexample :
    List.map (fun a => a.agent_id) (Reg.values exTieState.agents) =
      ["a1", "analyzer_01"] ∧
    (∀ a ∈ Reg.values exTieState.agents, agentScore (taskKeywords "anything") a = 0) ∧
    select_agent_for_task exTieState "anything" = some "analyzer_01" := by
  decide

/-- C8 amended: whenever selection returns an agent, that agent's
keyword-intersection score is maximal among all registered agents; the
first-seen-wins tie-break among equally scored agents is guaranteed only
when some agent scores positively (otherwise the `"analyzer_01"` fallback
may override it). -/
theorem select_agent_returns_max_score (s : SwarmState) (d : String) (aid : String)
    (hwf : ∀ p ∈ s.agents, (p.2).agent_id = p.1)
    (h : select_agent_for_task s d = some aid) :
    (∃ a ∈ Reg.values s.agents, a.agent_id = aid ∧
      ∀ b ∈ Reg.values s.agents,
        agentScore (taskKeywords d) b ≤ agentScore (taskKeywords d) a) ∧
    ((∃ b ∈ Reg.values s.agents, 0 < agentScore (taskKeywords d) b) →
      ∃ pre a post, Reg.values s.agents = pre ++ a :: post ∧ a.agent_id = aid ∧
        (∀ b ∈ pre, agentScore (taskKeywords d) b < agentScore (taskKeywords d) a)) := by
  have hne : s.agents ≠ [] := by
    intro hc
    unfold select_agent_for_task at h
    rw [if_pos (by simp [hc])] at h
    cases h
  obtain ⟨pre, y, post, hsplit, hpre, hpost, hfb, hmain⟩ := select_agent_cases s d hne
  have hy : y ∈ Reg.values s.agents := by
    rw [hsplit]
    simp
  have hymax : ∀ b ∈ Reg.values s.agents,
      agentScore (taskKeywords d) b ≤ agentScore (taskKeywords d) y := by
    intro b hb
    rw [hsplit] at hb
    rcases List.mem_append.mp hb with hb | hb
    · exact le_of_lt (hpre b hb)
    · rcases List.mem_cons.mp hb with hb | hb
      · rw [hb]
      · exact hpost b hb
  rcases Nat.eq_zero_or_pos (agentScore (taskKeywords d) y) with hy0 | hypos
  · by_cases hold : Reg.holds s.agents "analyzer_01" = true
    · have hsel := hfb ⟨hy0, hold⟩
      rw [hsel] at h
      have haid : aid = "analyzer_01" := by
        cases h
        rfl
      obtain ⟨pq, hpq, hpq1⟩ := (Reg.holds_iff s.agents "analyzer_01").mp hold
      refine ⟨⟨pq.2, List.mem_map_of_mem _ hpq, by rw [hwf pq hpq, hpq1, haid], ?_⟩, ?_⟩
      · intro b hb
        have hb0 : agentScore (taskKeywords d) b = 0 := by
          have := hymax b hb
          omega
        have hq0 : agentScore (taskKeywords d) pq.2 = 0 := by
          have := hymax pq.2 (List.mem_map_of_mem _ hpq)
          omega
        omega
      · rintro ⟨b, hb, hbpos⟩
        have := hymax b hb
        omega
    · have hfalse : Reg.holds s.agents "analyzer_01" = false := by simpa using hold
      have hsel := hmain (Or.inr hfalse)
      rw [hsel] at h
      have haid : aid = y.agent_id := by
        cases h
        rfl
      refine ⟨⟨y, hy, haid.symm, hymax⟩, ?_⟩
      rintro ⟨b, hb, hbpos⟩
      have := hymax b hb
      omega
  · have hsel := hmain (Or.inl hypos)
    rw [hsel] at h
    have haid : aid = y.agent_id := by
      cases h
      rfl
    exact ⟨⟨y, hy, haid.symm, hymax⟩,
      fun _ => ⟨pre, y, post, hsplit, haid.symm, hpre⟩⟩

/-- C8 witness: a positively scored selection on the analyzer state. -/
theorem select_agent_returns_max_score_witness :
    ∃ a ∈ Reg.values exAnalyzerState.agents, a.agent_id = "analyzer_01" ∧
      ∀ b ∈ Reg.values exAnalyzerState.agents,
        agentScore (taskKeywords "analyze X") b ≤ agentScore (taskKeywords "analyze X") a :=
  (select_agent_returns_max_score exAnalyzerState "analyze X" "analyzer_01"
    (by decide) (by decide)).1

/-- C1: executing a missing workflow id yields the only failure result;
executing a registered workflow always returns normally with every step
carrying a recorded result and a terminal step status, every step result
appended to the workflow's results list (execution continues past failed
steps), and the stored workflow's status is `"completed"` exactly when
every step completed, and `"partial"` otherwise. -/
theorem execute_workflow_status_correct (s : SwarmState) (wid now : String) :
    (Reg.find? s.workflows wid = none →
      execute_workflow s wid now = some (WorkflowResult.notFound, s)) ∧
    (∀ wf, Reg.find? s.workflows wid = some wf →
      ∃ b wf2 s2, execute_workflow s wid now = some (WorkflowResult.done b wf2, s2) ∧
        Reg.find? s2.workflows wid = some wf2 ∧
        wf2.steps.length = wf.steps.length ∧
        wf2.results.length = wf.steps.length ∧
        (∀ st ∈ wf2.steps, st.result.isSome = true ∧
          (st.status = "completed" ∨ st.status = "failed")) ∧
        (wf2.status = "completed" ↔ ∀ st ∈ wf2.steps, st.status = "completed") ∧
        (wf2.status = "completed" ∨ wf2.status = "partial") ∧
        b = (wf2.status == "completed")) := by
  constructor
  · intro h
    exact execute_workflow_not_found now h
  · intro wf h
    obtain ⟨wf2, s2, hx, hfind, hlen1, hlen2, hall, hstat, hm⟩ :=
      execute_workflow_found now h
    refine ⟨_, wf2, s2, hx, hfind, hlen1, hlen2, hall, ?_, ?_, rfl⟩
    · by_cases hca : List.all wf2.steps (fun st => st.status == "completed") = true
      · rw [hstat, if_pos hca]
        simp only [List.all_eq_true, beq_iff_eq] at hca
        exact ⟨fun _ => hca, fun _ => rfl⟩
      · rw [hstat, if_neg hca]
        constructor
        · intro hcp
          exact absurd hcp (by decide)
        · intro hstep
          exfalso
          apply hca
          rw [List.all_eq_true]
          intro st hst
          rw [beq_iff_eq]
          exact hstep st hst
    · by_cases hca : List.all wf2.steps (fun st => st.status == "completed") = true
      · rw [hstat, if_pos hca]
        exact Or.inl rfl
      · rw [hstat, if_neg hca]
        exact Or.inr rfl

/-- C1 witness: the spec's two-step example — step 1 completes, step 2 fails
on assignment, the workflow ends `"partial"` with both results recorded,
and a missing workflow id yields the failure result. -/
theorem execute_workflow_status_correct_witness :
    execute_workflow exWorkflowState "nope" "t1" =
      some (WorkflowResult.notFound, exWorkflowState) ∧
    (∃ b wf2 s2, execute_workflow exWorkflowState "wf1" "t1" =
      some (WorkflowResult.done b wf2, s2)) ∧
    wfSummary (execute_workflow exWorkflowState "wf1" "t1") =
      some (false, "partial", ["completed", "failed"], 2) := by
  refine ⟨(execute_workflow_status_correct exWorkflowState "nope" "t1").1 (by decide),
    ?_, by decide⟩
  obtain ⟨b, wf2, s2, hx, -, -, -, -, -, -, -⟩ :=
    (execute_workflow_status_correct exWorkflowState "wf1" "t1").2
      (create_workflow exAnalyzerState "wf1" "Demo" "two steps"
        [StepInput.dict (some "analyze X") none none,
         StepInput.dict (some "bogus") none (some "nonexistent")] "t0").1 (by decide)
  exact ⟨b, wf2, s2, hx⟩

/-- C5 counterexample: for an agent registered under the empty identifier,
assignment succeeds but the immediately following execution fails with
"Task not assigned" (Python falsiness of the empty string), so the task is
not completed and no counter moves — refuting the claim for this agent. -/
theorem assign_execute_empty_id_counterexample :
    (assign_task (create_task exEmptyIdState "t" "do" 1 "t1").2 "t" "").1 = true ∧
    execute_task (assign_task (create_task exEmptyIdState "t" "do" 1 "t1").2 "t" "").2
        "t" "t2" =
      some (ExecResult.err "Task not assigned",
        (assign_task (create_task exEmptyIdState "t" "do" 1 "t1").2 "t" "").2) := by
  decide

/-- C5 amended: for every registered agent with a non-empty identifier, a
successful assign on a freshly created task followed immediately by execute
completes the task, stamps `completed_at`, stores the success payload (task
id, agent id and name, execution timestamp, description) as the task's
result, and increments the agent's completed-task counter by exactly 1. -/
theorem assign_then_execute_completes (s : SwarmState) (task_id description : String)
    (priority : Int) (t1 t3 agent_id : String) (agent : Agent)
    (hagent : Reg.find? s.agents agent_id = some agent) (hne : agent_id ≠ "") :
    (assign_task (create_task s task_id description priority t1).2 task_id agent_id).1 =
      true ∧
    ∃ s3,
      execute_task
          (assign_task (create_task s task_id description priority t1).2 task_id agent_id).2
          task_id t3 =
        some (ExecResult.ok (ExecPayload.mk task_id agent.agent_id agent.name t3 description),
          s3) ∧
      Reg.find? s3.tasks task_id =
        some (Task.mk task_id description priority (some agent_id) "completed" t1 (some t3)
          (some (ExecResult.ok
            (ExecPayload.mk task_id agent.agent_id agent.name t3 description)))) ∧
      Reg.find? s3.agents agent_id =
        some { agent with tasks_completed := agent.tasks_completed + 1 } := by
  have h1 : Reg.find? (create_task s task_id description priority t1).2.tasks task_id =
      some (Task.mk task_id description priority none "pending" t1 none none) :=
    Reg.find?_set_self _ _ _
  have hold : Reg.holds (create_task s task_id description priority t1).2.agents agent_id =
      true := Reg.holds_of_find? hagent
  have hassign := assign_task_success h1 hold
  constructor
  · rw [hassign]
  · have hf2 : Reg.find?
        (assign_task (create_task s task_id description priority t1).2 task_id agent_id).2.tasks
        task_id =
        some (Task.mk task_id description priority (some agent_id) "assigned" t1 none none) := by
      rw [hassign]
      exact Reg.find?_set_self _ _ _
    have hg2 : Reg.find?
        (assign_task (create_task s task_id description priority t1).2 task_id agent_id).2.agents
        agent_id = some agent := by
      rw [hassign]
      exact hagent
    have hexec := @execute_task_success _ task_id agent_id t3 _ _ hf2 rfl hne hg2
    refine ⟨_, hexec, ?_, ?_⟩
    · exact Reg.find?_set_self _ _ _
    · exact Reg.find?_set_self _ _ _

/-- C5 witness: assign-then-execute on a fresh task with the analyzer. -/
theorem assign_then_execute_completes_witness :
    (assign_task (create_task exAnalyzerState "task1" "analyze things" 2 "t1").2
      "task1" "analyzer_01").1 = true ∧
    ∃ s3,
      execute_task
          (assign_task (create_task exAnalyzerState "task1" "analyze things" 2 "t1").2
            "task1" "analyzer_01").2 "task1" "t3" =
        some (ExecResult.ok
          (ExecPayload.mk "task1" "analyzer_01" "Analyzer" "t3" "analyze things"), s3) ∧
      Reg.find? s3.tasks "task1" =
        some (Task.mk "task1" "analyze things" 2 (some "analyzer_01") "completed" "t1"
          (some "t3")
          (some (ExecResult.ok
            (ExecPayload.mk "task1" "analyzer_01" "Analyzer" "t3" "analyze things")))) ∧
      Reg.find? s3.agents "analyzer_01" =
        some (Agent.mk "analyzer_01" "Analyzer" AgentRole.analyzer
          ["analyze", "review", "audit"] "idle" 1 "t0") :=
  assign_then_execute_completes exAnalyzerState "task1" "analyze things" 2 "t1" "t3"
    "analyzer_01"
    (Agent.mk "analyzer_01" "Analyzer" AgentRole.analyzer
      ["analyze", "review", "audit"] "idle" 0 "t0")
    (by decide) (by decide)

end Swarm
